import Mathlib

/-!
Verification of the tsplice transcript-selection core.

The Go source is shallowly embedded: Go strings are `List Char`, Go `float64`
seconds are `ℚ` (all timecodes handled by the program carry millisecond
precision, where IEEE double arithmetic and exact rational arithmetic agree on
every observable output), fallible functions return `Option`/`Except`.
The bubbletea `model` is a record; `tea.Cmd` values and spawned goroutines are
reified as an `Eff` value returned next to the updated model.
-/

namespace Tsplice

/-! ## Character and string helpers (Go standard-library behaviour) -/

/-- Value of a digit character: `'0'` ↦ 0, …, `'9'` ↦ 9. -/
def digitVal (c : Char) : Nat := c.toNat - 48

/-- The decimal digit character for `n < 10`. -/
def digitChar (n : Nat) : Char :=
  match n with
  | 0 => '0' | 1 => '1' | 2 => '2' | 3 => '3' | 4 => '4'
  | 5 => '5' | 6 => '6' | 7 => '7' | 8 => '8' | _ => '9'

/-- Decimal digits of `n`, most significant first, with `fuel` bounding the
recursion depth (`fuel = n + 1` always suffices). -/
def natDigitsF : Nat → Nat → List Char
  | 0, _ => []
  | fuel + 1, n =>
    if n < 10 then [digitChar n]
    else natDigitsF fuel (n / 10) ++ [digitChar (n % 10)]

/-- Decimal digits of `n`, most significant first (`"0"` for 0). -/
def natDigits (n : Nat) : List Char := natDigitsF (n + 1) n

/-- Go `fmt.Sprintf("%02d", i)`: at least two characters, zero padded;
a sign or extra digits widen the output. -/
def fmt02d (i : Int) : List Char :=
  if i < 0 then '-' :: natDigits i.natAbs
  else if i.natAbs < 10 then '0' :: natDigits i.natAbs
  else natDigits i.natAbs

/-- Three-digit zero-padded rendering of `n % 1000`. -/
def pad3 (n : Nat) : List Char :=
  [digitChar (n / 100 % 10), digitChar (n / 10 % 10), digitChar (n % 10)]

/-- Two-digit zero-padded rendering (for values below 100). -/
def pad2 (n : Nat) : List Char := [digitChar (n / 10 % 10), digitChar (n % 10)]

/-- Go `strings.Split(s, sep)` for a one-character separator. -/
def splitChar (sep : Char) : List Char → List (List Char)
  | [] => [[]]
  | c :: rest =>
    if c = sep then [] :: splitChar sep rest
    else (c :: (splitChar sep rest).headD []) :: (splitChar sep rest).tail

/-- First occurrence of `sep` inside `s`: the part before it and the part
after it, or `none` when `sep` does not occur.  `fuel` bounds recursion. -/
def findSepF (sep : List Char) : Nat → List Char → Option (List Char × List Char)
  | 0, _ => none
  | _, [] => none
  | fuel + 1, c :: rest =>
    if sep.isPrefixOf (c :: rest) then some ([], (c :: rest).drop sep.length)
    else
      match findSepF sep fuel rest with
      | some (pre, post) => some (c :: pre, post)
      | none => none

/-- Go `strings.Split(s, sep)` for a non-empty multi-character separator:
split around each non-overlapping occurrence, left to right.
`fuel` bounds the recursion; `s.length + 1` always suffices. -/
def splitSeqF (sep : List Char) : Nat → List Char → List (List Char)
  | 0, s => [s]
  | fuel + 1, s =>
    match findSepF sep (s.length + 1) s with
    | none => [s]
    | some (pre, post) => pre :: splitSeqF sep fuel post

/-- Go `strings.Split` for the separators used by tsplice (all non-empty). -/
def splitSeq (sep s : List Char) : List (List Char) := splitSeqF sep (s.length + 1) s

/-- ASCII whitespace, the only whitespace occurring in VTT transcripts
(Go `strings.TrimSpace` additionally handles other Unicode space). -/
def isWs (c : Char) : Bool := c = ' ' || c = '\t' || c = '\n' || c = '\r'

/-- Go `strings.TrimSpace` restricted to ASCII whitespace. -/
def trimSpace (s : List Char) : List Char :=
  ((s.dropWhile isWs).reverse.dropWhile isWs).reverse

/-- Digit string to number, most significant digit first. -/
def digitsVal (ds : List Char) : Nat := ds.foldl (fun a c => a * 10 + digitVal c) 0

/-- Scan a non-empty run of leading decimal digits (the digits part of a Go
`fmt.Sscanf` `%d`/`%f` token); returns the value and the rest. -/
def scanNat (cs : List Char) : Option (Nat × List Char) :=
  let ds := cs.takeWhile (fun c => c.isDigit)
  if ds.isEmpty then none else some (digitsVal ds, cs.dropWhile (fun c => c.isDigit))

/-- Go `fmt.Sscanf` `%d` verb: optional sign then decimal digits; fails when
no digit follows.  (Leading-space skipping and other integer bases never
arise on tsplice's inputs and are not modelled.) -/
def scanInt (cs : List Char) : Option (Int × List Char) :=
  match cs with
  | [] => none
  | c :: rest =>
    if c = '-' then (scanNat rest).map (fun p => (-(p.1 : Int), p.2))
    else if c = '+' then (scanNat rest).map (fun p => ((p.1 : Int), p.2))
    else (scanNat cs).map (fun p => ((p.1 : Int), p.2))

/-- Unsigned decimal-point number: digits, then optionally `.` and more
digits.  Result is exact (`ℚ`). -/
def scanPosFloat (cs : List Char) : Option (ℚ × List Char) :=
  match scanNat cs with
  | none => none
  | some (ip, r) =>
    match r with
    | '.' :: r2 =>
      let fs := r2.takeWhile (fun c => c.isDigit)
      some ((ip : ℚ) + (digitsVal fs : ℚ) / (10 : ℚ) ^ fs.length,
            r2.dropWhile (fun c => c.isDigit))
    | _ => some ((ip : ℚ), r)

/-- Go `fmt.Sscanf` `%f` verb on tsplice's inputs: optional sign, digits,
optional fraction.  (Exponents never occur in timecodes and are not
modelled; `float64` and `ℚ` agree at the millisecond precision in use.) -/
def scanFloat (cs : List Char) : Option (ℚ × List Char) :=
  match cs with
  | [] => none
  | c :: rest =>
    if c = '-' then (scanPosFloat rest).map (fun p => (-p.1, p.2))
    else if c = '+' then scanPosFloat rest
    else scanPosFloat cs

/-- Go `fmt.Sprintf("%.3f", x)` on millisecond-precision values: the sign,
the integer part, `.`, and exactly three fraction digits.  `round` matches
Go's rounding on every value the program produces (ties never arise at
millisecond precision). -/
def fmtF3 (q : ℚ) : List Char :=
  let n : Int := round (q * 1000)
  let body := natDigits (n.natAbs / 1000) ++ '.' :: pad3 (n.natAbs % 1000)
  if n < 0 then '-' :: body else body

/-! ## Data model (structs.go) -/

/-- `structs.go`: one timed transcript record parsed from the VTT text. -/
structure TranscriptItem where
  StartTime : List Char
  EndTime : List Char
  Text : List Char
deriving DecidableEq, Repr

/-- `structs.go`: one checklist row; `timestamp` is the single stored string
`StartTime ++ " - " ++ EndTime`, `selected` the user-controlled flag. -/
structure item where
  title : List Char
  timestamp : List Char
  selected : Bool
deriving DecidableEq, Repr

/-- The separator `" - "` placed between the two timecodes of `item.timestamp`. -/
def sepDash : List Char := [' ', '-', ' ']

/-- `main.go`/`part_000`: building a checklist row from a transcript record. -/
def itemOfTranscript (t : TranscriptItem) : item :=
  { title := t.Text, timestamp := t.StartTime ++ sepDash ++ t.EndTime, selected := false }

/-! ## Timestamp utilities (part_000) -/

/-- `parseTimeToSeconds`: `fmt.Sscanf(timeStr, "%d:%d:%f", ...)` followed by
`hours*3600 + minutes*60 + seconds`; `none` when the scan fails. -/
def parseTimeToSeconds (timeStr : List Char) : Option ℚ :=
  match scanInt timeStr with
  | none => none
  | some (hours, r1) =>
    match r1 with
    | ':' :: r2 =>
      match scanInt r2 with
      | none => none
      | some (minutes, r3) =>
        match r3 with
        | ':' :: r4 =>
          match scanFloat r4 with
          | none => none
          | some (seconds, _) =>
            some ((hours : ℚ) * 3600 + (minutes : ℚ) * 60 + seconds)
        | _ => none
    | _ => none

/-- `fmt.Sscanf(s, "%d", &v)` with `v` initialised to `0`: the scanned value,
or `0` when the scan fails (Go leaves the variable untouched). -/
def sscanfIntOrZero (s : List Char) : Int :=
  match scanInt s with
  | some (v, _) => v
  | none => 0

/-- `addSecondsToTimestamp`: split on `":"` (need 3 parts) and the last part
on `"."` (need 2 parts), add `seconds` to the scanned seconds field, clamp
the result at 59 when it reaches 60, and re-render with `%02d`, keeping the
hour, minute and millisecond parts verbatim. -/
def addSecondsToTimestamp (timestamp : List Char) (seconds : Int) : List Char :=
  match splitChar ':' timestamp with
  | [p0, p1, p2] =>
    match splitChar '.' p2 with
    | [s0, s1] =>
      let currentSec := sscanfIntOrZero s0
      let newSec := currentSec + seconds
      let newSec := if 60 ≤ newSec then 59 else newSec
      p0 ++ ':' :: p1 ++ ':' :: fmt02d newSec ++ '.' :: s1
    | _ => timestamp
  | _ => timestamp

/-- `strings.Split(ts, " - ")[0]`: the part of a stored timestamp before the
first `" - "` (the whole string when the separator is absent; Go's split
never returns an empty slice). -/
def firstField (ts : List Char) : List Char := (splitSeq sepDash ts).headD []

/-- `getEndTime`: the start timecode of the next row when there is one, else
the current row's start bumped by ten seconds-field seconds.  (In Go an
out-of-range `currentIndex` would panic on indexing; every caller passes a
valid index, and the literal `"00:00:10.000"` is the fallback for the
impossible failed type assertion.) -/
def getEndTime (items : List item) (currentIndex : Nat) : List Char :=
  if _h : currentIndex + 1 < items.length then
    firstField (items[currentIndex + 1]).timestamp
  else
    match items[currentIndex]? with
    | some currentItem => addSecondsToTimestamp (firstField currentItem.timestamp) 10
    | none => "00:00:10.000".data

/-! ## Compile planner (part_000, `compileVideoSegments`) -/

/-- A compiled output span, start and end in seconds. -/
abbrev Span := ℚ × ℚ

/-- The two error classes of `compileVideoSegments`: Go's
`"could not parse start/end time ..."` and `"no segments selected"`. -/
inductive CompileError where
  | malformedTimestamp
  | noSelection
deriving DecidableEq, Repr

/-- The segment-collection loop of `compileVideoSegments`: walk the rows in
order; for each selected row whose timestamp splits on `" - "` into exactly
two parts, parse both timecodes (aborting on the first parse failure);
selected rows whose timestamp does not split into two parts are skipped. -/
def collectSegments : List item → Except CompileError (List Span)
  | [] => .ok []
  | i :: rest =>
    if i.selected then
      match splitSeq sepDash i.timestamp with
      | [ts0, ts1] =>
        match parseTimeToSeconds ts0 with
        | none => .error .malformedTimestamp
        | some start =>
          match parseTimeToSeconds ts1 with
          | none => .error .malformedTimestamp
          | some stop => (collectSegments rest).map (fun l => (start, stop) :: l)
      | _ => collectSegments rest
    else collectSegments rest

/-- One `between(t,start,end)` atom of the ffmpeg select filter, rendered
with `%.3f` like the Go `fmt.Sprintf`. -/
def betweenAtom (sp : Span) : List Char :=
  "between(t,".data ++ fmtF3 sp.1 ++ ',' :: fmtF3 sp.2 ++ [')']

/-- `strings.Join(filterParts, "+")` over the rendered atoms: the combined
select-filter expression passed identically to the `-vf` and `-af` graphs. -/
def selectFilterOf (segments : List Span) : List Char :=
  List.intercalate ['+'] (segments.map betweenAtom)

/-- `compileVideoSegments` up to its process boundary: the ordered span list
plus the select-filter expression handed to ffmpeg, or the error raised
before any dispatch.  (Output-path derivation and the ffmpeg invocation
itself are I/O outside the pure core.) -/
def compileVideoSegments (items : List item) : Except CompileError (List Span × List Char) :=
  match collectSegments items with
  | .error e => .error e
  | .ok segments =>
    if segments.length = 0 then .error .noSelection
    else .ok (segments, selectFilterOf segments)

/-! ## VTT parsing (part_000, `parseVTT`) -/

/-- Does a trimmed line start with `HH:MM:SS.mmm --> HH:MM:SS.mmm`
(the anchored timestamp regex)?  Twelve fixed-shape characters each side. -/
def isTimecode12 : List Char → Bool
  | [a, b, ':', c, d, ':', e, f, '.', g, h, i] =>
    a.isDigit && b.isDigit && c.isDigit && d.isDigit && e.isDigit && f.isDigit &&
      g.isDigit && h.isDigit && i.isDigit
  | _ => false

/-- The timestamp-line regex match: the two captured timecodes, or `none`.
Trailing characters after the second timecode are allowed (the regex is only
anchored at the start). -/
def matchTimestampLine (l : List Char) : Option (List Char × List Char) :=
  let a := l.take 12
  let r := l.drop 12
  let b := (r.drop 5).take 12
  if isTimecode12 a ∧ r.take 5 = " --> ".data ∧ isTimecode12 b then some (a, b) else none

/-- The line loop of `parseVTT`, carrying the pending start/end timecodes
(Go uses the empty string as the not-yet-seen sentinel). -/
def parseVTTLoop : List (List Char) → List Char → List Char → List TranscriptItem
  | [], _, _ => []
  | l :: rest, curStart, curEnd =>
    let line := trimSpace l
    match matchTimestampLine line with
    | some (s, e) => parseVTTLoop rest s e
    | none =>
      if "WEBVTT".data.isPrefixOf line ∨ line = [] then parseVTTLoop rest curStart curEnd
      else if curStart ≠ [] then
        ⟨curStart, curEnd, line⟩ :: parseVTTLoop rest [] []
      else parseVTTLoop rest curStart curEnd

/-- `parseVTT`: split on newlines and fold the line loop.  (The Go function's
`error` result is always `nil`, so the model is total.) -/
def parseVTT (vttContent : List Char) : List TranscriptItem :=
  parseVTTLoop (splitChar '\n' vttContent) [] []

/-! ## The bubbletea model (structs.go, main.go) -/

/-- `structs.go`'s `model`, with the bubbles `list.Model` flattened to its
items and its cursor index and the spinner dropped (pure animation state). -/
structure model where
  loading : Bool
  loadingMsg : List Char
  quitting : Bool
  inputFile : List Char
  errorMsg : List Char
  transcriptItems : List TranscriptItem
  statuses : List (List Char)
  items : List item
  cursor : Nat
deriving DecidableEq, Repr

/-- The key presses `model.Update` distinguishes, plus the asynchronous
completion messages.  `"enter"` and `" "` behave identically and are one
constructor; every other key is delegated to the list widget. -/
inductive Msg where
  | keyQ
  | keyToggle
  | keyP
  | keyC
  | keyOther
  | audioExtracted (audioFile : List Char)
  | transcriptionDone (transcriptItems : List TranscriptItem)
  | videoCompilationDone (outputFile : List Char)
  | errorMsg (err : List Char)
  | spinnerTick
deriving DecidableEq, Repr

/-- The observable effect of one `Update`/`Init` step: the returned `tea.Cmd`
together with any goroutine spawned on the way (the fire-and-forget
`go previewVideo(...)` of the `"p"` branch). -/
inductive Eff where
  | none
  | quit
  | spinAndExtract (inputFile : List Char)
  | transcribe (audioFile : List Char)
  | spinAndCompile (inputFile : List Char) (items : List item)
  | preview (inputFile startTime endTime : List Char)
  | passToList
  | spinTick
deriving DecidableEq, Repr

/-- Status strings appended by `main.go`'s `Update`. -/
def audioExtractedStatus : List Char := "Audio extracted from ffmpeg.".data

/-- Status string appended when transcription completes. -/
def transcriptionDoneStatus : List Char := "Transcription finished and saved locally.".data

/-- Status string appended when compilation completes. -/
def videoCompiledStatus : List Char := "Video compiled successfully.".data

/-- Status string reporting the output path. -/
def savedOutputStatus (outputFile : List Char) : List Char :=
  "Saved output to ".data ++ outputFile

/-- Loading message shown while compiling. -/
def compilingMsg : List Char := "Compiling video segments with ffmpeg...".data

/-- Loading message shown while transcribing. -/
def transcribingMsg : List Char := "Transcribing with OpenAI Whisper...".data

/-- Loading message shown while extracting audio. -/
def extractingMsg : List Char := "Extracting audio with ffmpeg...".data

/-- Status appended when a sidecar transcript was found at startup. -/
def cachedTranscriptStatus : List Char := "Transcript already exists locally".data

/-- `main.go`'s `model.Update`, one message at a time.  The list widget's own
cursor movement (the fall-through `m.list.Update(msg)` for unhandled keys) is
abstracted as the `passToList` effect. -/
def model.Update (m : model) (msg : Msg) : model × Eff :=
  match msg with
  | .keyQ => ({ m with quitting := true }, .quit)
  | .keyToggle =>
    if m.loading = false ∧ 0 < m.items.length then
      if h : m.cursor < m.items.length then
        let i := m.items[m.cursor]
        ({ m with items := m.items.set m.cursor { i with selected := !i.selected } }, .none)
      else (m, .none)
    else (m, .none)
  | .keyP =>
    if m.loading = false ∧ 0 < m.items.length then
      if h : m.cursor < m.items.length then
        let i := m.items[m.cursor]
        (m, .preview m.inputFile (firstField i.timestamp) (getEndTime m.items m.cursor))
      else (m, .none)
    else (m, .none)
  | .keyC =>
    if m.loading = false ∧ 0 < m.items.length then
      if m.items.any (fun i => i.selected) then
        ({ m with loading := true, loadingMsg := compilingMsg },
         .spinAndCompile m.inputFile m.items)
      else (m, .none)
    else (m, .none)
  | .keyOther => if m.loading = false then (m, .passToList) else (m, .none)
  | .audioExtracted audioFile =>
    ({ m with statuses := m.statuses ++ [audioExtractedStatus], loadingMsg := transcribingMsg },
     .transcribe audioFile)
  | .transcriptionDone tis =>
    ({ m with statuses := m.statuses ++ [transcriptionDoneStatus], loading := false,
              transcriptItems := tis, items := tis.map itemOfTranscript, cursor := 0 },
     .none)
  | .videoCompilationDone outputFile =>
    ({ m with statuses := m.statuses ++ [videoCompiledStatus, savedOutputStatus outputFile],
              loading := false, quitting := true }, .quit)
  | .errorMsg e =>
    ({ m with statuses := m.statuses ++ [e], loading := false, errorMsg := e }, .none)
  | .spinnerTick => if m.loading then (m, .spinTick) else (m, .none)

/-- `model.Init`: start the spinner and the audio extraction only when the
model is still loading; otherwise run nothing. -/
def model.Init (m : model) : Eff :=
  if m.loading then .spinAndExtract m.inputFile else .none

/-- The initial model built by `main` before `tea.NewProgram`: loading by
default; when the sidecar `.vtt` file exists its content is parsed and the
model starts non-loading with the cached transcript.  (File existence and
reading are I/O; the parameter `sidecar` is the file's content when present.) -/
def initialModel (inputFile : List Char) (sidecar : Option (List Char)) : model :=
  let base : model :=
    { loading := true, loadingMsg := extractingMsg, quitting := false,
      inputFile := inputFile, errorMsg := [], transcriptItems := [],
      statuses := [], items := [], cursor := 0 }
  match sidecar with
  | none => base
  | some content =>
    let tis := parseVTT content
    { base with loading := false, items := tis.map itemOfTranscript,
                transcriptItems := tis,
                statuses := base.statuses ++ [cachedTranscriptStatus] }

/-! ## Statement-side helpers and spec-modelled filter semantics -/

/-- The span a single row denotes: its stored timestamp must split on
`" - "` into exactly two timecodes and both must parse. -/
def spanOfItem (i : item) : Option Span :=
  match splitSeq sepDash i.timestamp with
  | [ts0, ts1] =>
    match parseTimeToSeconds ts0, parseTimeToSeconds ts1 with
    | some a, some b => some (a, b)
    | _, _ => none
  | _ => none

/-- The spans of the selected rows, in sequence order; `none` as soon as one
selected row has no span. -/
def selectedSpans : List item → Option (List Span)
  | [] => some []
  | i :: rest =>
    if i.selected then
      match spanOfItem i with
      | some sp => (selectedSpans rest).map (fun l => sp :: l)
      | none => none
    else selectedSpans rest

/-- One atom of the emitted select filter, read back: the literal shape
`between(t,A,B)` with both arguments full decimal numbers. -/
def parseFilterAtom (a : List Char) : Option Span :=
  if a.take 10 = "between(t,".data ∧ a.getLast? = some ')' then
    match splitChar ',' ((a.drop 10).dropLast) with
    | [x, y] =>
      match scanFloat x, scanFloat y with
      | some (q1, []), some (q2, []) => some (q1, q2)
      | _, _ => none
    | _ => none
  else none

/-- All atoms of a `+`-separated atom list, or `none` if any fails. -/
def parseFilterAtoms : List (List Char) → Option (List Span)
  | [] => some []
  | a :: rest =>
    match parseFilterAtom a, parseFilterAtoms rest with
    | some sp, some l => some (sp :: l)
    | _, _ => none

/-- Modelled from the spec: the media transcoder's evaluation of the emitted
select-filter expression is outside this repository (ffmpeg is an external
collaborator); per §4.3 the expression is the disjunction (`+`) of
`between(t,start,end)` atoms, each read as `start <= t < end`.  The
expression holds at time `t` when some parsed atom's span contains `t`. -/
def filterHolds (s : List Char) (t : ℚ) : Prop :=
  match parseFilterAtoms (splitChar '+' s) with
  | some spans => ∃ sp ∈ spans, sp.1 ≤ t ∧ t < sp.2
  | none => False

/-- Modelled from the spec: `format(seconds) -> text` of §4.1 — the spec's
timestamp utilities include a seconds-to-`HH:MM:SS.mmm` renderer, but no
such function exists in src (stored timecodes are only ever re-rendered
from their original strings); renders zero-padded at millisecond
precision. -/
def formatSeconds (q : ℚ) : List Char :=
  let ms : Nat := (round (q * 1000)).toNat
  pad2 (ms / 3600000) ++ ':' :: pad2 (ms / 60000 % 60) ++ ':' :: pad2 (ms / 1000 % 60) ++
    '.' :: pad3 (ms % 1000)

/-! ## Helper lemmas -/

theorem toNat_bounds_of_isDigit {c : Char} (h : c.isDigit = true) :
    48 ≤ c.toNat ∧ c.toNat ≤ 57 := by
  unfold Char.isDigit at h
  rw [Bool.and_eq_true, decide_eq_true_eq, decide_eq_true_eq] at h
  exact ⟨UInt32.le_toNat_of_le (by decide) h.1, UInt32.toNat_le_of_le (by decide) h.2⟩

theorem digitVal_lt_ten {c : Char} (h : c.isDigit = true) : digitVal c < 10 := by
  have := toNat_bounds_of_isDigit h
  unfold digitVal
  omega

theorem ne_of_isDigit {c x : Char} (h : c.isDigit = true) (hx : x.isDigit = false) :
    c ≠ x := by
  intro hcx
  rw [hcx, hx] at h
  exact Bool.false_ne_true h

theorem digitChar_eq_ofNat : ∀ k < 10, digitChar k = Char.ofNat (48 + k) := by decide

theorem digitChar_digitVal {c : Char} (h : c.isDigit = true) :
    digitChar (digitVal c) = c := by
  obtain ⟨hlo, hhi⟩ := toNat_bounds_of_isDigit h
  have hk : digitVal c < 10 := digitVal_lt_ten h
  rw [digitChar_eq_ofNat _ hk]
  have : 48 + digitVal c = c.toNat := by unfold digitVal; omega
  rw [this, Char.ofNat_toNat]

theorem isDigit_digitChar : ∀ k < 10, (digitChar k).isDigit = true := by decide

theorem digitVal_digitChar : ∀ k < 10, digitVal (digitChar k) = k := by decide

theorem splitChar_cons_sep (sep : Char) (l : List Char) :
    splitChar sep (sep :: l) = [] :: splitChar sep l := by
  simp [splitChar]

theorem splitChar_cons_ne {c sep : Char} (h : c ≠ sep) (l : List Char) :
    splitChar sep (c :: l) =
      (c :: (splitChar sep l).headD []) :: (splitChar sep l).tail := by
  simp [splitChar, h]

theorem set_getElem_self : ∀ (l : List α) (n : Nat) (h : n < l.length),
    l.set n l[n] = l
  | _ :: _, 0, _ => rfl
  | a :: l, n + 1, h => by
    simp only [List.set, List.getElem_cons_succ]
    rw [set_getElem_self l n (by simpa using h)]

theorem splitChar_nil (sep : Char) : splitChar sep [] = [[]] := rfl

theorem sscanf_two_digits {s1 s2 : Char} (hs1 : s1.isDigit = true) (hs2 : s2.isDigit = true) :
    sscanfIntOrZero [s1, s2] = ((digitVal s1 * 10 + digitVal s2 : Nat) : Int) := by
  have n1 : s1 ≠ '-' := ne_of_isDigit hs1 (by decide)
  have n2 : s1 ≠ '+' := ne_of_isDigit hs1 (by decide)
  simp [sscanfIntOrZero, scanInt, scanNat, n1, n2, hs1, hs2, digitsVal]

/-! ## Claim theorems -/

/-- C2.  For every well-formed timestamp string `HH:MM:SS.mmm` (each field a
run of decimal digits of the stated width) and every non-negative integer
`n`, `addSecondsToTimestamp` adds `n` to the seconds field only: the hour,
minute and millisecond characters are reproduced verbatim, and the new
seconds field is the old value plus `n`, clamped at 59 when the sum reaches
60 instead of carrying into minutes or hours. -/
theorem addSeconds_seconds_field_only
    (h1 h2 m1 m2 s1 s2 d1 d2 d3 : Char) (n : Nat)
    (hh1 : h1.isDigit = true) (hh2 : h2.isDigit = true)
    (hm1 : m1.isDigit = true) (hm2 : m2.isDigit = true)
    (hs1 : s1.isDigit = true) (hs2 : s2.isDigit = true)
    (hd1 : d1.isDigit = true) (hd2 : d2.isDigit = true) (hd3 : d3.isDigit = true) :
    addSecondsToTimestamp [h1, h2, ':', m1, m2, ':', s1, s2, '.', d1, d2, d3] (n : Int) =
      [h1, h2, ':', m1, m2, ':'] ++
        fmt02d (if 60 ≤ ((digitVal s1 * 10 + digitVal s2 + n : Nat) : Int) then 59
                else ((digitVal s1 * 10 + digitVal s2 + n : Nat) : Int)) ++
        '.' :: [d1, d2, d3] := by
  have c1 : h1 ≠ ':' := ne_of_isDigit hh1 (by decide)
  have c2 : h2 ≠ ':' := ne_of_isDigit hh2 (by decide)
  have c3 : m1 ≠ ':' := ne_of_isDigit hm1 (by decide)
  have c4 : m2 ≠ ':' := ne_of_isDigit hm2 (by decide)
  have c5 : s1 ≠ ':' := ne_of_isDigit hs1 (by decide)
  have c6 : s2 ≠ ':' := ne_of_isDigit hs2 (by decide)
  have c7 : d1 ≠ ':' := ne_of_isDigit hd1 (by decide)
  have c8 : d2 ≠ ':' := ne_of_isDigit hd2 (by decide)
  have c9 : d3 ≠ ':' := ne_of_isDigit hd3 (by decide)
  have e5 : s1 ≠ '.' := ne_of_isDigit hs1 (by decide)
  have e6 : s2 ≠ '.' := ne_of_isDigit hs2 (by decide)
  have e7 : d1 ≠ '.' := ne_of_isDigit hd1 (by decide)
  have e8 : d2 ≠ '.' := ne_of_isDigit hd2 (by decide)
  have e9 : d3 ≠ '.' := ne_of_isDigit hd3 (by decide)
  have hsplit1 : splitChar ':' [h1, h2, ':', m1, m2, ':', s1, s2, '.', d1, d2, d3] =
      [[h1, h2], [m1, m2], [s1, s2, '.', d1, d2, d3]] := by
    simp [splitChar_cons_ne, splitChar_cons_sep, splitChar_nil, c1, c2, c3, c4, c5, c6, c7, c8,
      c9, show ('.' : Char) ≠ ':' by decide]
  have hsplit2 : splitChar '.' [s1, s2, '.', d1, d2, d3] = [[s1, s2], [d1, d2, d3]] := by
    simp [splitChar_cons_ne, splitChar_cons_sep, splitChar_nil, e5, e6, e7, e8, e9]
  have harith : sscanfIntOrZero [s1, s2] + (n : Int) =
      ((digitVal s1 * 10 + digitVal s2 + n : Nat) : Int) := by
    rw [sscanf_two_digits hs1 hs2]; push_cast; ring
  unfold addSecondsToTimestamp
  rw [hsplit1]
  simp only [hsplit2, harith]
  simp

/-- C2 witness: `addSecondsToTimestamp "00:00:55.000" 10 = "00:00:59.000"`
(the 65 would-be seconds clamp at 59). -/
theorem addSeconds_seconds_field_only_witness :
    addSecondsToTimestamp "00:00:55.000".data 10 = "00:00:59.000".data := by
  have h := addSeconds_seconds_field_only '0' '0' '0' '0' '5' '5' '0' '0' '0' 10
    (by decide) (by decide) (by decide) (by decide) (by decide) (by decide)
    (by decide) (by decide) (by decide)
  exact h.trans (by decide)

/-- The toggled copy of a row: `i.selected = !i.selected` in the Go. -/
def toggled (i : item) : item := { i with selected := !i.selected }

theorem Update_keyToggle (m : model) (hl : m.loading = false) (h : m.cursor < m.items.length) :
    model.Update m .keyToggle =
      ({ m with items := m.items.set m.cursor (toggled m.items[m.cursor]) }, .none) := by
  have hpos : 0 < m.items.length := by omega
  simp only [model.Update]
  rw [if_pos ⟨hl, hpos⟩, dif_pos h]
  rfl

/-- C6.  With the model interactive (not loading) and the cursor valid,
pressing toggle twice with no intervening message restores the item list —
and with it the selected flag of the row at the cursor — to its original
value, and leaves the cursor where it was: toggling is an involution on the
stored selection state. -/
theorem toggle_involution (m : model) (hl : m.loading = false)
    (h : m.cursor < m.items.length) :
    (model.Update (model.Update m .keyToggle).1 .keyToggle).1.items = m.items ∧
    (model.Update (model.Update m .keyToggle).1 .keyToggle).1.cursor = m.cursor := by
  have step1 : (model.Update m .keyToggle).1 =
      { m with items := m.items.set m.cursor (toggled m.items[m.cursor]) } := by
    rw [Update_keyToggle m hl h]
  rw [step1]
  have hl1 : ({ m with items := m.items.set m.cursor (toggled m.items[m.cursor]) } :
      model).loading = false := hl
  have h2 : ({ m with items := m.items.set m.cursor (toggled m.items[m.cursor]) } :
      model).cursor <
      ({ m with items := m.items.set m.cursor (toggled m.items[m.cursor]) } :
        model).items.length := by
    simpa using h
  rw [Update_keyToggle _ hl1 h2]
  refine ⟨?_, rfl⟩
  simp only [List.getElem_set_self, List.set_set]
  rw [show toggled (toggled m.items[m.cursor]) = m.items[m.cursor] by simp [toggled]]
  exact set_getElem_self _ _ h

/-- C6 witness: a concrete two-row model whose first row is selected; two
toggles restore the row list and the cursor. -/
theorem toggle_involution_witness :
    (model.Update (model.Update
        { loading := false, loadingMsg := [], quitting := false, inputFile := "in.mp4".data,
          errorMsg := [], transcriptItems := [], statuses := [],
          items := [⟨"a".data, "00:00:01.000 - 00:00:02.000".data, true⟩,
                    ⟨"b".data, "00:00:02.000 - 00:00:05.000".data, false⟩],
          cursor := 0 } .keyToggle).1 .keyToggle).1.items =
      [⟨"a".data, "00:00:01.000 - 00:00:02.000".data, true⟩,
       ⟨"b".data, "00:00:02.000 - 00:00:05.000".data, false⟩] ∧
    (model.Update (model.Update
        { loading := false, loadingMsg := [], quitting := false, inputFile := "in.mp4".data,
          errorMsg := [], transcriptItems := [], statuses := [],
          items := [⟨"a".data, "00:00:01.000 - 00:00:02.000".data, true⟩,
                    ⟨"b".data, "00:00:02.000 - 00:00:05.000".data, false⟩],
          cursor := 0 } .keyToggle).1 .keyToggle).1.cursor = 0 :=
  toggle_involution _ rfl (by decide)

/-- C10.  With the model interactive and the cursor valid, a toggle changes
at most the selected flag of the row at the cursor: the cursor, the list
length, every other row, and the toggled row's title and timestamp are
unchanged, while its selected flag is exactly negated. -/
theorem toggle_frame_condition (m : model) (hl : m.loading = false)
    (h : m.cursor < m.items.length) :
    (model.Update m .keyToggle).1.cursor = m.cursor ∧
    (model.Update m .keyToggle).1.items.length = m.items.length ∧
    (∀ j : Nat, j ≠ m.cursor → (model.Update m .keyToggle).1.items[j]? = m.items[j]?) ∧
    (model.Update m .keyToggle).1.items[m.cursor]?.map (fun i => i.title) =
      m.items[m.cursor]?.map (fun i => i.title) ∧
    (model.Update m .keyToggle).1.items[m.cursor]?.map (fun i => i.timestamp) =
      m.items[m.cursor]?.map (fun i => i.timestamp) ∧
    (model.Update m .keyToggle).1.items[m.cursor]?.map (fun i => i.selected) =
      m.items[m.cursor]?.map (fun i => !i.selected) := by
  rw [Update_keyToggle m hl h]
  refine ⟨rfl, by simp, ?_, ?_, ?_, ?_⟩
  · intro j hj
    exact List.getElem?_set_ne (fun hc => hj hc.symm)
  · rw [List.getElem?_set_self h, List.getElem?_eq_getElem h]
    simp [toggled]
  · rw [List.getElem?_set_self h, List.getElem?_eq_getElem h]
    simp [toggled]
  · rw [List.getElem?_set_self h, List.getElem?_eq_getElem h]
    simp [toggled]

/-- C10 witness: the concrete two-row model of the toggle involution
witness, checked through the frame-condition theorem at cursor 0. -/
theorem toggle_frame_condition_witness :
    ((model.Update
        { loading := false, loadingMsg := [], quitting := false, inputFile := "in.mp4".data,
          errorMsg := [], transcriptItems := [], statuses := [],
          items := [⟨"a".data, "00:00:01.000 - 00:00:02.000".data, true⟩,
                    ⟨"b".data, "00:00:02.000 - 00:00:05.000".data, false⟩],
          cursor := 0 } .keyToggle).1.items[1]? =
      some ⟨"b".data, "00:00:02.000 - 00:00:05.000".data, false⟩) :=
  ((toggle_frame_condition _ rfl (by decide)).2.2.1 1 (by decide)).trans (by decide)

theorem collectSegments_of_unselected {items : List item}
    (hsel : ∀ i ∈ items, i.selected = false) : collectSegments items = .ok [] := by
  induction items with
  | nil => rfl
  | cons i rest ih =>
    have hi : i.selected = false := hsel i (List.mem_cons_self i rest)
    have := ih (fun j hj => hsel j (List.mem_cons_of_mem i hj))
    simp [collectSegments, hi, this]

/-- C4.  In any interactive state in which no row is selected, the compile
intent is rejected synchronously: `Update` returns the model unchanged with
no dispatched effect (state remains interactive, rows and cursor intact),
and `compileVideoSegments` itself would classify the situation as the
no-selection error. -/
theorem requestCompile_no_selection (m : model) (hl : m.loading = false)
    (hsel : ∀ i ∈ m.items, i.selected = false) :
    model.Update m .keyC = (m, .none) ∧
    compileVideoSegments m.items = .error .noSelection := by
  constructor
  · have hany : m.items.any (fun i => i.selected) = false := by
      simp only [List.any_eq_false]
      intro i hi
      simp [hsel i hi]
    simp only [model.Update]
    by_cases hlen : 0 < m.items.length
    · rw [if_pos ⟨hl, hlen⟩, hany]
      rfl
    · rw [if_neg (fun hc => hlen hc.2)]
  · rw [compileVideoSegments, collectSegments_of_unselected hsel]
    rfl

/-- C4 witness: a one-row model with nothing selected; the compile intent is
ignored and the planner reports no selection. -/
theorem requestCompile_no_selection_witness :
    model.Update
        { loading := false, loadingMsg := [], quitting := false, inputFile := "in.mp4".data,
          errorMsg := [], transcriptItems := [], statuses := [],
          items := [⟨"a".data, "00:00:01.000 - 00:00:02.000".data, false⟩],
          cursor := 0 } .keyC =
      ({ loading := false, loadingMsg := [], quitting := false, inputFile := "in.mp4".data,
         errorMsg := [], transcriptItems := [], statuses := [],
         items := [⟨"a".data, "00:00:01.000 - 00:00:02.000".data, false⟩],
         cursor := 0 }, .none) ∧
    compileVideoSegments [⟨"a".data, "00:00:01.000 - 00:00:02.000".data, false⟩] =
      .error .noSelection :=
  requestCompile_no_selection _ rfl (by decide)

/-- A state in which a preview has just been dispatched: the update for the
preview key returns the model unchanged, so nothing in the state records the
in-flight preview. -/
def previewCexModel : model :=
  { loading := false, loadingMsg := [], quitting := false, inputFile := "in.mp4".data,
    errorMsg := [], transcriptItems := [], statuses := [],
    items := [⟨"a".data, "00:00:01.000 - 00:00:02.000".data, false⟩], cursor := 0 }

/-- C5 counterexample.  Dispatching a preview leaves the model unchanged,
and a second preview intent issued while the first preview is still in
flight dispatches a second preview operation instead of being rejected or
ignored: the single-outstanding-async-op property fails for previews. -/
theorem single_async_op_cex :
    (model.Update previewCexModel .keyP).2 =
      .preview "in.mp4".data "00:00:01.000".data "00:00:11.000".data ∧
    (model.Update previewCexModel .keyP).1 = previewCexModel ∧
    (model.Update (model.Update previewCexModel .keyP).1 .keyP).2 =
      .preview "in.mp4".data "00:00:01.000".data "00:00:11.000".data ∧
    (model.Update (model.Update previewCexModel .keyP).1 .keyP).2 ≠ .none := by
  refine ⟨by decide, by decide, by decide, by decide⟩

/-- C5 amended.  Only the compile half of the invariant holds: while a
compile (or the initial loading pipeline) is in flight, `loading` is true
and any new preview or compile intent is ignored with no dispatch; preview
dispatches themselves are fire-and-forget, untracked by the state, and a
new preview or compile intent issued while only a preview is in flight is
processed normally. -/
theorem loading_blocks_async_intents (m : model) (h : m.loading = true) :
    model.Update m .keyP = (m, .none) ∧ model.Update m .keyC = (m, .none) := by
  constructor <;>
    · simp only [model.Update]
      rw [if_neg (fun hc => by rw [h] at hc; exact absurd hc.1 (by simp))]

/-- C3.  With the model interactive and the cursor valid, the preview intent
dispatches a preview whose start is the current row's start timecode (the
part of its stored timestamp before `" - "`) and whose end is computed by
`getEndTime`: the next row's start timecode when a next row exists, else the
current start with its seconds field bumped by 10 (seconds-field arithmetic,
no carry); in particular at a last row starting `00:01:00.000` the preview
end is `00:01:10.000`. -/
theorem requestPreview_range (m : model) (hl : m.loading = false)
    (h : m.cursor < m.items.length) (s e : List Char)
    (hts : splitSeq sepDash (m.items[m.cursor]).timestamp = [s, e]) :
    model.Update m .keyP = (m, .preview m.inputFile s (getEndTime m.items m.cursor)) ∧
    (∀ (h2 : m.cursor + 1 < m.items.length) (s2 e2 : List Char),
       splitSeq sepDash (m.items[m.cursor + 1]).timestamp = [s2, e2] →
       getEndTime m.items m.cursor = s2) ∧
    (m.cursor + 1 = m.items.length →
       getEndTime m.items m.cursor = addSecondsToTimestamp s 10) ∧
    getEndTime [⟨"last".data, "00:01:00.000 - 00:01:05.000".data, false⟩] 0 =
      "00:01:10.000".data := by
  have hff : firstField (m.items[m.cursor]).timestamp = s := by
    rw [firstField, hts]; rfl
  refine ⟨?_, ?_, ?_, by decide⟩
  · have hpos : 0 < m.items.length := by omega
    simp only [model.Update]
    rw [if_pos ⟨hl, hpos⟩, dif_pos h]
    rw [hff]
  · intro h2 s2 e2 hsplit2
    rw [getEndTime, dif_pos h2, firstField, hsplit2]
    rfl
  · intro heq
    rw [getEndTime, dif_neg (by omega)]
    rw [List.getElem?_eq_getElem h]
    show addSecondsToTimestamp (firstField (m.items[m.cursor]).timestamp) 10 = _
    rw [hff]

/-- C3 witness: a two-row model at cursor 0; the dispatched preview runs
from the current row's start `00:00:01.000` to the next row's start
`00:00:02.000`. -/
theorem requestPreview_range_witness :
    (model.Update
        { loading := false, loadingMsg := [], quitting := false, inputFile := "in.mp4".data,
          errorMsg := [], transcriptItems := [], statuses := [],
          items := [⟨"a".data, "00:00:01.000 - 00:00:02.000".data, false⟩,
                    ⟨"b".data, "00:00:02.000 - 00:00:05.000".data, false⟩],
          cursor := 0 } .keyP).2 =
      .preview "in.mp4".data "00:00:01.000".data "00:00:02.000".data := by
  have h := requestPreview_range
    { loading := false, loadingMsg := [], quitting := false, inputFile := "in.mp4".data,
      errorMsg := [], transcriptItems := [], statuses := [],
      items := [⟨"a".data, "00:00:01.000 - 00:00:02.000".data, false⟩,
                ⟨"b".data, "00:00:02.000 - 00:00:05.000".data, false⟩],
      cursor := 0 } rfl (by decide) "00:00:01.000".data "00:00:02.000".data (by decide)
  rw [h.1, h.2.1 (by decide) "00:00:02.000".data "00:00:05.000".data (by decide)]

/-- C7.  Whenever the sidecar transcript file is present at startup (its
content is `content`), the initial model is built from the parsed sidecar:
it is not loading, its rows are exactly the parsed transcript records, the
cache status line is reported, and `Init` dispatches nothing — in
particular no audio-extraction command, so the extraction/transcription
pipeline is never started for that run. -/
theorem sidecar_skips_pipeline (inputFile content : List Char) :
    (initialModel inputFile (some content)).loading = false ∧
    model.Init (initialModel inputFile (some content)) = .none ∧
    (initialModel inputFile (some content)).transcriptItems = parseVTT content ∧
    (initialModel inputFile (some content)).items = (parseVTT content).map itemOfTranscript ∧
    (initialModel inputFile (some content)).statuses = [cachedTranscriptStatus] ∧
    (initialModel inputFile none).loading = true ∧
    model.Init (initialModel inputFile none) = .spinAndExtract inputFile :=
  ⟨rfl, rfl, rfl, rfl, rfl, rfl, rfl⟩

/-- C8 counterexample.  A selected row whose stored timecode `"banana"` is
not well-formed does not make compile fail with the malformed-timestamp
error: the row does not split into two fields on `" - "`, so it is silently
skipped, and compile instead fails with the no-selection error. -/
theorem compile_malformed_cex :
    compileVideoSegments [⟨"a".data, "banana".data, true⟩] =
      .error .noSelection ∧
    compileVideoSegments [⟨"a".data, "banana".data, true⟩] ≠
      .error .malformedTimestamp := by
  constructor
  · with_unfolding_all rfl
  · intro h
    have h2 : CompileError.noSelection = CompileError.malformedTimestamp := by
      have h1 : compileVideoSegments [⟨"a".data, "banana".data, true⟩] =
          .error .noSelection := by with_unfolding_all rfl
      rw [h1] at h
      exact (Except.error.injEq _ _).mp h
    exact absurd h2 (by decide)

theorem collectSegments_malformed : ∀ (items : List item) (i : item), i ∈ items →
    i.selected = true → ∀ s e, splitSeq sepDash i.timestamp = [s, e] →
    parseTimeToSeconds s = none ∨ parseTimeToSeconds e = none →
    collectSegments items = .error .malformedTimestamp := by
  intro items
  induction items with
  | nil => intro i hmem; exact absurd hmem (List.not_mem_nil i)
  | cons i0 rest ih =>
    intro i hmem hsel s e hsplit hbad
    rcases List.mem_cons.mp hmem with heq | hmem2
    · subst heq
      simp only [collectSegments, hsel, if_true, hsplit]
      rcases hbad with hb | hb
      · rw [hb]
      · cases hps : parseTimeToSeconds s with
        | none => rfl
        | some va => rw [hb]
    · have hrest := ih i hmem2 hsel s e hsplit hbad
      simp only [collectSegments]
      by_cases h0 : i0.selected = true
      · simp only [h0, if_true]
        rcases hl : splitSeq sepDash i0.timestamp with _ | ⟨a, _ | ⟨b, _ | ⟨c, l⟩⟩⟩
        · exact hrest
        · exact hrest
        · cases hpa : parseTimeToSeconds a with
          | none => simp only [hpa]
          | some va =>
            cases hpb : parseTimeToSeconds b with
            | none => simp only [hpa, hpb]
            | some vb => simp only [hpa, hpb, hrest, Except.map]
        · exact hrest
      · simp only [h0, if_false]
        exact hrest

/-- C8 amended.  A selected row whose stored timecode splits on `" - "` into
exactly two fields, at least one of which fails to re-parse into seconds,
makes the whole compile fail with MalformedTimestamp; but a selected row
whose stored timecode does not split into exactly two fields is silently
skipped by the collection loop rather than reported. -/
theorem compile_malformed_spec :
    (∀ (items : List item) (i : item), i ∈ items → i.selected = true →
      ∀ s e, splitSeq sepDash i.timestamp = [s, e] →
      parseTimeToSeconds s = none ∨ parseTimeToSeconds e = none →
      compileVideoSegments items = .error .malformedTimestamp) ∧
    (∀ (i : item) (rest : List item), i.selected = true →
      (splitSeq sepDash i.timestamp).length ≠ 2 →
      collectSegments (i :: rest) = collectSegments rest) := by
  constructor
  · intro items i hmem hsel s e hsplit hbad
    rw [compileVideoSegments, collectSegments_malformed items i hmem hsel s e hsplit hbad]
  · intro i rest hsel hlen
    simp only [collectSegments, hsel, if_true]
    rcases hl : splitSeq sepDash i.timestamp with _ | ⟨a, _ | ⟨b, _ | ⟨c, l⟩⟩⟩
    · rfl
    · rfl
    · exact absurd (by rw [hl]; rfl) hlen
    · rfl

/-- C8 amended witness: a selected row `"aa - bb"` whose fields do not parse
fails compile with MalformedTimestamp, while a selected row `"banana"`
(which does not split into two fields) is skipped by the collection loop. -/
theorem compile_malformed_spec_witness :
    compileVideoSegments [⟨"a".data, "aa - bb".data, true⟩] =
      .error .malformedTimestamp ∧
    collectSegments [⟨"x".data, "banana".data, true⟩] = collectSegments [] := by
  constructor
  · exact compile_malformed_spec.1 _ ⟨"a".data, "aa - bb".data, true⟩ (by decide) rfl
      "aa".data "bb".data (by decide) (Or.inl (by decide))
  · exact compile_malformed_spec.2 ⟨"x".data, "banana".data, true⟩ [] rfl (by decide)

theorem collectSegments_of_selectedSpans :
    ∀ (items : List item) (spans : List Span), selectedSpans items = some spans →
      collectSegments items = .ok spans := by
  intro items
  induction items with
  | nil =>
    intro spans h
    simp only [selectedSpans, Option.some.injEq] at h
    rw [← h]
    rfl
  | cons i rest ih =>
    intro spans h
    by_cases hsel : i.selected = true
    · simp only [selectedSpans, hsel, if_true] at h
      cases hsp : spanOfItem i with
      | none => rw [hsp] at h; exact absurd h (by simp)
      | some sp =>
        rw [hsp, Option.map_eq_some'] at h
        obtain ⟨l, hl, hspans⟩ := h
        have hcrest := ih l hl
        rw [spanOfItem] at hsp
        rcases hsplit : splitSeq sepDash i.timestamp with _ | ⟨a, _ | ⟨b, _ | ⟨c, tl⟩⟩⟩ <;>
          rw [hsplit] at hsp
        · exact absurd hsp (by simp)
        · exact absurd hsp (by simp)
        · cases hpa : parseTimeToSeconds a with
          | none => simp [hpa] at hsp
          | some va =>
            cases hpb : parseTimeToSeconds b with
            | none => simp [hpa, hpb] at hsp
            | some vb =>
              simp only [hpa, hpb, Option.some.injEq] at hsp
              simp only [collectSegments, hsel, if_true, hsplit, hpa, hpb, hcrest, Except.map]
              rw [← hspans, ← hsp]
        · exact absurd hsp (by simp)
    · have hsel2 : i.selected = false := by
        cases hx : i.selected
        · rfl
        · exact absurd hx hsel
      simp only [selectedSpans, hsel2] at h
      simp only [collectSegments, hsel2, Bool.false_eq_true, if_false]
      exact ih spans (by simpa using h)

theorem selectedSpans_length :
    ∀ (items : List item) (spans : List Span), selectedSpans items = some spans →
      spans.length = (items.filter (fun i => i.selected)).length := by
  intro items
  induction items with
  | nil =>
    intro spans h
    simp only [selectedSpans, Option.some.injEq] at h
    rw [← h]
    rfl
  | cons i rest ih =>
    intro spans h
    by_cases hsel : i.selected = true
    · simp only [selectedSpans, hsel, if_true] at h
      cases hsp : spanOfItem i with
      | none => rw [hsp] at h; exact absurd h (by simp)
      | some sp =>
        rw [hsp, Option.map_eq_some'] at h
        obtain ⟨l, hl, hspans⟩ := h
        rw [← hspans, List.filter_cons_of_pos hsel]
        simp [ih l hl]
    · have hsel2 : i.selected = false := by
        cases hx : i.selected
        · rfl
        · exact absurd hx hsel
      simp only [selectedSpans, hsel2] at h
      rw [List.filter_cons_of_neg (by simp [hsel2])]
      exact ih spans (by simpa using h)

/-- C1.  For every row sequence whose selected rows all carry well-formed
timestamps, compiling succeeds and produces exactly one span per selected
row, in sequence order, each span being the parsed (start, end) seconds of
that row, together with the `+`-joined disjunction of `between(t,start,end)`
atoms over exactly those spans; in particular, for the two segments
`(00:00:01.000-00:00:02.000, "a")` and `(00:00:02.000-00:00:05.000, "b")`
with only `"b"` selected, the result is exactly one span `(2.0, 5.0)` and a
filter expression that holds exactly on `[2.0, 5.0)`. -/
theorem compile_selected_spans (items : List item) (spans : List Span)
    (hs : selectedSpans items = some spans) (hne : spans ≠ []) :
    compileVideoSegments items = .ok (spans, selectFilterOf spans) ∧
    spans.length = (items.filter (fun i => i.selected)).length ∧
    compileVideoSegments
      [⟨"a".data, "00:00:01.000 - 00:00:02.000".data, false⟩,
       ⟨"b".data, "00:00:02.000 - 00:00:05.000".data, true⟩] =
      .ok ([((2 : ℚ), (5 : ℚ))], "between(t,2.000,5.000)".data) ∧
    (∀ t : ℚ, filterHolds (selectFilterOf [((2 : ℚ), (5 : ℚ))]) t ↔ (2 ≤ t ∧ t < 5)) := by
  refine ⟨?_, selectedSpans_length items spans hs, by with_unfolding_all rfl, ?_⟩
  · rw [compileVideoSegments, collectSegments_of_selectedSpans items spans hs]
    show (if spans.length = 0 then Except.error CompileError.noSelection
          else Except.ok (spans, selectFilterOf spans)) = _
    rw [if_neg (by simpa using hne)]
  · intro t
    have hp : parseFilterAtoms (splitChar '+' (selectFilterOf [((2 : ℚ), (5 : ℚ))])) =
        some [((2 : ℚ), (5 : ℚ))] := by
      with_unfolding_all rfl
    simp only [filterHolds, hp]
    simp

/-- C1 witness: the two-segment example with only `"b"` selected, pushed
through the theorem: one span `(2.0, 5.0)` and its `between` atom. -/
theorem compile_selected_spans_witness :
    compileVideoSegments
      [⟨"a".data, "00:00:01.000 - 00:00:02.000".data, false⟩,
       ⟨"b".data, "00:00:02.000 - 00:00:05.000".data, true⟩] =
      .ok ([((2 : ℚ), (5 : ℚ))], selectFilterOf [((2 : ℚ), (5 : ℚ))]) :=
  (compile_selected_spans _ [((2 : ℚ), (5 : ℚ))] (by with_unfolding_all rfl) (by simp)).1

/-- C9.  For every valid `HH:MM:SS.mmm` string (digit characters with hours
at most 23, minutes and seconds at most 59, any three millisecond digits),
parsing yields a value that the spec-modelled `formatSeconds` renders back
to exactly the original string: format is a right inverse of parse on this
domain. -/
theorem parse_format_roundtrip
    (h1 h2 m1 m2 s1 s2 d1 d2 d3 : Char)
    (hh1 : h1.isDigit = true) (hh2 : h2.isDigit = true)
    (hm1 : m1.isDigit = true) (hm2 : m2.isDigit = true)
    (hs1 : s1.isDigit = true) (hs2 : s2.isDigit = true)
    (hd1 : d1.isDigit = true) (hd2 : d2.isDigit = true) (hd3 : d3.isDigit = true)
    (hH : digitVal h1 * 10 + digitVal h2 ≤ 23)
    (hM : digitVal m1 * 10 + digitVal m2 ≤ 59)
    (hS : digitVal s1 * 10 + digitVal s2 ≤ 59) :
    ∃ q : ℚ,
      parseTimeToSeconds [h1, h2, ':', m1, m2, ':', s1, s2, '.', d1, d2, d3] = some q ∧
      formatSeconds q = [h1, h2, ':', m1, m2, ':', s1, s2, '.', d1, d2, d3] := by
  have nm1 : h1 ≠ '-' := ne_of_isDigit hh1 (by decide)
  have np1 : h1 ≠ '+' := ne_of_isDigit hh1 (by decide)
  have nm2 : m1 ≠ '-' := ne_of_isDigit hm1 (by decide)
  have np2 : m1 ≠ '+' := ne_of_isDigit hm1 (by decide)
  have nm3 : s1 ≠ '-' := ne_of_isDigit hs1 (by decide)
  have np3 : s1 ≠ '+' := ne_of_isDigit hs1 (by decide)
  have cdig : (':' : Char).isDigit = false := by decide
  have ddig : ('.' : Char).isDigit = false := by decide
  have vh1 := digitVal_lt_ten hh1
  have vh2 := digitVal_lt_ten hh2
  have vm1 := digitVal_lt_ten hm1
  have vm2 := digitVal_lt_ten hm2
  have vs1 := digitVal_lt_ten hs1
  have vs2 := digitVal_lt_ten hs2
  have vd1 := digitVal_lt_ten hd1
  have vd2 := digitVal_lt_ten hd2
  have vd3 := digitVal_lt_ten hd3
  refine ⟨(((digitVal h1 * 10 + digitVal h2) * 3600000 +
            (digitVal m1 * 10 + digitVal m2) * 60000 +
            (digitVal s1 * 10 + digitVal s2) * 1000 +
            (digitVal d1 * 100 + digitVal d2 * 10 + digitVal d3) : Nat) : ℚ) / 1000, ?_, ?_⟩
  · simp only [parseTimeToSeconds, scanInt, scanNat, scanFloat, scanPosFloat,
      List.takeWhile_cons, List.dropWhile_cons, hh1, hh2, hm1, hm2, hs1, hs2, hd1, hd2, hd3,
      cdig, ddig, nm1, np1, nm2, np2, nm3, np3, if_true, if_false, Bool.false_eq_true,
      ite_true, ite_false, List.takeWhile_nil, List.dropWhile_nil, digitsVal, List.foldl,
      List.isEmpty, Option.map_some', Option.some.injEq, if_neg, List.length_cons,
      List.length_nil]
    field_simp
    push_cast
    ring
  · rw [formatSeconds]
    have hq : (((digitVal h1 * 10 + digitVal h2) * 3600000 +
            (digitVal m1 * 10 + digitVal m2) * 60000 +
            (digitVal s1 * 10 + digitVal s2) * 1000 +
            (digitVal d1 * 100 + digitVal d2 * 10 + digitVal d3) : Nat) : ℚ) / 1000 * 1000 =
        (((digitVal h1 * 10 + digitVal h2) * 3600000 +
            (digitVal m1 * 10 + digitVal m2) * 60000 +
            (digitVal s1 * 10 + digitVal s2) * 1000 +
            (digitVal d1 * 100 + digitVal d2 * 10 + digitVal d3) : Nat) : ℚ) := by
      field_simp
    rw [hq, round_natCast, Int.toNat_natCast]
    generalize hE : (digitVal h1 * 10 + digitVal h2) * 3600000 +
            (digitVal m1 * 10 + digitVal m2) * 60000 +
            (digitVal s1 * 10 + digitVal s2) * 1000 +
            (digitVal d1 * 100 + digitVal d2 * 10 + digitVal d3) = N
    simp only [pad2, pad3, List.cons_append, List.nil_append]
    rw [show N / 3600000 / 10 % 10 = digitVal h1 by omega,
        show N / 3600000 % 10 = digitVal h2 by omega,
        show N / 60000 % 60 / 10 % 10 = digitVal m1 by omega,
        show N / 60000 % 60 % 10 = digitVal m2 by omega,
        show N / 1000 % 60 / 10 % 10 = digitVal s1 by omega,
        show N / 1000 % 60 % 10 = digitVal s2 by omega,
        show N % 1000 / 100 % 10 = digitVal d1 by omega,
        show N % 1000 / 10 % 10 = digitVal d2 by omega,
        show N % 1000 % 10 = digitVal d3 by omega,
        digitChar_digitVal hh1, digitChar_digitVal hh2, digitChar_digitVal hm1,
        digitChar_digitVal hm2, digitChar_digitVal hs1, digitChar_digitVal hs2,
        digitChar_digitVal hd1, digitChar_digitVal hd2, digitChar_digitVal hd3]

/-- C9 witness: the round trip at `"01:23:45.678"`. -/
theorem parse_format_roundtrip_witness :
    ∃ q : ℚ,
      parseTimeToSeconds "01:23:45.678".data = some q ∧
      formatSeconds q = "01:23:45.678".data :=
  parse_format_roundtrip '0' '1' '2' '3' '4' '5' '6' '7' '8'
    (by decide) (by decide) (by decide) (by decide) (by decide) (by decide)
    (by decide) (by decide) (by decide) (by decide) (by decide) (by decide)

/-- C5 amended witness: a loading model ignores both intents. -/
theorem loading_blocks_async_intents_witness :
    model.Update
        { loading := true, loadingMsg := [], quitting := false, inputFile := "in.mp4".data,
          errorMsg := [], transcriptItems := [], statuses := [],
          items := [⟨"a".data, "00:00:01.000 - 00:00:02.000".data, true⟩],
          cursor := 0 } .keyP =
      ({ loading := true, loadingMsg := [], quitting := false, inputFile := "in.mp4".data,
         errorMsg := [], transcriptItems := [], statuses := [],
         items := [⟨"a".data, "00:00:01.000 - 00:00:02.000".data, true⟩],
         cursor := 0 }, .none) :=
  (loading_blocks_async_intents _ rfl).1

end Tsplice
